import Mathlib

/-!
Verification development for the `ttv` command-line tool (Rust).

The definitions below are a shallow embedding of the parts of the source
that the specification talks about:

* `src/watch.rs`  — input normalization, concurrent launch, aggregation
* `src/auth.rs`   — token refresh (`run`, `credentials`, `map_auth_error`)
* `src/config.rs` — atomic credential-store save (`save_config`, `load_config`)
* `src/follow.rs` — token freshness predicate (`token_needs_refresh`)
* `src/twitch.rs` — batched identity / liveness resolution

Rust strings are modelled via Lean `String` (a structure wrapping
`List Char`); all structural string work happens on the character list so
that proofs stay elementary.  External effects (process spawn/wait, HTTP,
file system) are modelled by explicit oracles / event traces.
-/

/-- Character-level strip of a literal from the front of a string
(`str::strip_prefix` in the source): returns the rest when `p` is an initial
run of `s`. -/
def dropPrefixChars : List Char → List Char → Option (List Char)
  | [], s => some s
  | _ :: _, [] => none
  | p :: ps, c :: cs => if c = p then dropPrefixChars ps cs else none

/-- Rust `str::trim` on the character list: whitespace removed at both ends. -/
def trimChars (s : List Char) : List Char :=
  ((s.dropWhile Char.isWhitespace).reverse.dropWhile Char.isWhitespace).reverse

/-- Rust `str::trim` lifted to `String`. -/
def trim (s : String) : String := ⟨trimChars s.data⟩

/-- Rust `Option::filter`. -/
def optFilter (p : α → Bool) : Option α → Option α
  | some a => if p a then some a else none
  | none => none

/-- Does `pat` occur at the head of `s`? (helper for substring search). -/
def matchesAt : List Char → List Char → Bool
  | [], _ => true
  | _ :: _, [] => false
  | p :: ps, c :: cs => (c = p) && matchesAt ps cs

/-- Does the character sequence `pat` occur anywhere inside `hay`? -/
def containsSeq : List Char → List Char → Bool
  | [], pat => pat.isEmpty
  | c :: rest, pat => matchesAt pat (c :: rest) || containsSeq rest pat

/-! ## src/watch.rs — input normalization -/

/-- Model of `watch.rs::is_valid_login` on the character list: non-empty and every
character an ASCII letter, digit, or underscore. -/
def is_valid_login_chars (l : List Char) : Bool :=
  !l.isEmpty && l.all (fun ch => ch.isAlphanum || ch == '_')

/-- Model of `watch.rs::is_valid_login`. -/
def is_valid_login (login : String) : Bool :=
  is_valid_login_chars login.data

/-- Scheme stripping in `watch.rs::parse_twitch_url`:
`input.strip_prefix("https://").or_else(|| input.strip_prefix("http://"))`. -/
def strip_scheme (s : List Char) : Option (List Char) :=
  match dropPrefixChars "https://".data s with
  | some rest => some rest
  | none => dropPrefixChars "http://".data s

/-- Model of `watch.rs::parse_twitch_url`: accepts `http(s)://`, optional `www.`,
host `twitch.tv/`, then a single non-empty path segment without `/`, `?`,
`#` that is also a valid login. -/
def parse_twitch_url (input : String) : Option String :=
  match strip_scheme input.data with
  | none => none
  | some without_scheme =>
    let without_www := (dropPrefixChars "www.".data without_scheme).getD without_scheme
    match dropPrefixChars "twitch.tv/".data without_www with
    | none => none
    | some path =>
      if path.isEmpty || path.contains '/' || path.contains '?' || path.contains '#' then
        none
      else if !is_valid_login_chars path then
        none
      else
        some ⟨path⟩

/-- Model of `watch.rs::parse_login`: URL form first, then bare-login form, else an
`Invalid Twitch URL or login` error. -/
def parse_login (input : String) : Except String String :=
  match parse_twitch_url input with
  | some login => .ok login
  | none =>
    if is_valid_login input then .ok input
    else .error ("Invalid Twitch URL or login: " ++ input)

/-- Rust `String::to_lowercase` (inputs here are ASCII logins, so per-char
lowering is exact). -/
def to_lowercase (s : String) : String := ⟨s.data.map Char.toLower⟩

/-- Loop body of `watch.rs::normalize_inputs`: the `HashSet` of seen keys is
modelled as the list `seen`, `Vec::push` as appending to `logins`. -/
def normalize_go : List String → List String → List String → Except String (List String)
  | [], _, logins => .ok logins
  | input :: rest, seen, logins =>
    match parse_login input with
    | .error e => .error e
    | .ok login =>
      let key := to_lowercase login
      if seen.contains key then normalize_go rest seen logins
      else normalize_go rest (key :: seen) (logins ++ [key])

/-- Model of `watch.rs::normalize_inputs`. -/
def normalize_inputs (inputs : List String) : Except String (List String) :=
  normalize_go inputs [] []

/-! ## src/watch.rs — concurrent launch and supervision

The behaviour of the external process for a given login is an oracle
`proc : String → ProcResult`: the spawn either fails outright, or the
spawned child is eventually waited on, yielding a wait error or an exit
code.  `launch` returns both the trace of logins for which a spawn was
attempted (in order) and the result of the launch loop. -/

/-- Terminal behaviour of the external `streamlink` process for one login. -/
inductive ProcResult where
  | spawnErr (msg : String)
  | waitErr (msg : String)
  | exited (code : Nat)
deriving DecidableEq

/-- Does the process fail at spawn time? -/
def isSpawnErrB : ProcResult → Bool
  | .spawnErr _ => true
  | _ => false

/-- Wait-phase view of a launched process (`child.wait()`): either a wait
error or an exit code. -/
def wait_of : ProcResult → Except String Nat
  | .spawnErr e => .error e
  | .waitErr e => .error e
  | .exited c => .ok c

/-- Launch loop of `watch.rs::run` (lines 27–49): spawn each login in order;
a spawn failure returns immediately with the `failed to start streamlink`
context error.  First component: logins for which a spawn was attempted. -/
def launch (proc : String → ProcResult) :
    List String → List String × Except String (List (String × Except String Nat))
  | [] => ([], .ok [])
  | l :: rest =>
    match proc l with
    | .spawnErr _ => ([l], .error ("failed to start streamlink for " ++ l))
    | .waitErr e =>
      let (t, res) := launch proc rest
      (l :: t, res.map (fun hs => (l, Except.error e) :: hs))
    | .exited c =>
      let (t, res) := launch proc rest
      (l :: t, res.map (fun hs => (l, Except.ok c) :: hs))

/-- Wait loop of `watch.rs::run` (lines 51–59): one failure message per
non-successful outcome, in handle order. -/
def collect_failures : List (String × Except String Nat) → List String
  | [] => []
  | (l, .ok code) :: rest =>
    if code = 0 then collect_failures rest
    else (l ++ " (exit " ++ toString code ++ ")") :: collect_failures rest
  | (l, .error err) :: rest => (l ++ " (" ++ err ++ ")") :: collect_failures rest

/-- Model of `watch.rs::run`, with the pre-flight `ensure_command_available` checks
(environment probes of `streamlink` and `mpv`) assumed to pass.  Returns the
spawn-attempt trace together with the command's result. -/
def watch_run (proc : String → ProcResult) (inputs : List String) :
    List String × Except String Unit :=
  match normalize_inputs inputs with
  | .error e => ([], .error e)
  | .ok logins =>
    if logins.isEmpty then ([], .error "No valid Twitch streams provided.")
    else
      match launch proc logins with
      | (attempted, .error e) => (attempted, .error e)
      | (attempted, .ok handles) =>
        let failed := collect_failures handles
        if failed.isEmpty then (attempted, .ok ())
        else
          (attempted,
            .error ("Some streams failed to start or exited early: " ++
              String.intercalate ", " failed))

example : normalize_inputs ["https://twitch.tv/Foo", "foo", "FOO"] = .ok ["foo"] := rfl
example : parse_twitch_url "https://twitch.tv/foo-bar" = none := rfl
example : parse_login "http://example.com/foo" =
    .error "Invalid Twitch URL or login: http://example.com/foo" := rfl

/-! ## Spec-side descriptions of the two accepted input forms

These two definitions follow the specification's words (a refinement
comparison point for the code's parser), not the source: a "valid service
URL" has an `http` or `https` scheme, an optional `www.`, the canonical
`twitch.tv` host, and a single non-empty path segment containing none of
`/`, `?`, `#`; a "bare login" is non-empty with every character an ASCII
letter, digit, or underscore. -/

/-- Spec-side URL form (no character-class restriction on the path segment). -/
def spec_url_form (input : String) : Bool :=
  match strip_scheme input.data with
  | none => false
  | some without_scheme =>
    let without_www := (dropPrefixChars "www.".data without_scheme).getD without_scheme
    match dropPrefixChars "twitch.tv/".data without_www with
    | none => false
    | some path =>
      !path.isEmpty && !path.contains '/' && !path.contains '?' && !path.contains '#'

/-- Spec-side bare-login form. -/
def spec_bare_form (input : String) : Bool :=
  !input.data.isEmpty && input.data.all (fun ch => ch.isAlphanum || ch == '_')

/-! ## Spec-side normalization (first-occurrence deduplication) -/

/-- Propagate `parse_login` (or any fallible map) over a list, stopping at
the first error — the behaviour of the `for` loop with `?` in the source. -/
def mapExcept (f : α → Except ε β) : List α → Except ε (List β)
  | [] => .ok []
  | a :: rest =>
    match f a with
    | .error e => .error e
    | .ok b => (mapExcept f rest).map (fun bs => b :: bs)

/-- Keep the first occurrence of every key, dropping later duplicates. -/
def dedup_first : List String → List String
  | [] => []
  | k :: rest => k :: dedup_first (rest.filter (fun x => !(x == k)))
termination_by l => l.length
decreasing_by
  simp only [List.length_cons]
  exact Nat.lt_succ_of_le (List.length_filter_le _ _)

/-- First-occurrence deduplication relative to an already-seen key set
(the invariant shape of the `normalize_inputs` loop). -/
def dedup_first_excluding (seen : List String) : List String → List String
  | [] => []
  | k :: rest =>
    if seen.contains k then dedup_first_excluding seen rest
    else k :: dedup_first_excluding (k :: seen) rest

/-! ## src/config.rs — credential record and atomic save -/

/-- Model of `config.rs::TwitchConfig`; the expiry is modelled as an integer UTC
timestamp. -/
structure TwitchConfig where
  client_id : Option String
  client_secret : Option String
  access_token : Option String
  expires_at : Option Int
deriving DecidableEq

/-- Model of `config.rs::Config`. -/
structure Config where
  twitch : TwitchConfig
deriving DecidableEq

/-- Model of `Config::default()` — every field absent. -/
def configDefault : Config :=
  { twitch := { client_id := none, client_secret := none,
                access_token := none, expires_at := none } }

/-- Contents of a file as visible to a reader: a complete serialized record,
or a torn (partial) write. -/
inductive Content where
  | full (c : Config)
  | torn
deriving DecidableEq

/-- The two files `save_config` touches: the store file `config.json` and
the temporary `config.json.tmp` (`none` = file absent). -/
structure FsState where
  store : Option Content
  tmp : Option Content
deriving DecidableEq

/-- Every intermediate file-system state of `config.rs::save_config`
(lines 133–162), i.e. every point at which the save can be interrupted or a
concurrent reader can run.  Steps, in source order: write the temporary file
(a torn intermediate state, then the complete synced contents), then
`fs::rename(tmp, path)`.  When the rename fails (`renameFails`) and the
store file exists, the fallback removes the store file and renames again;
when the rename fails and the store is absent, the save returns the error
with no further file mutation.  Directory creation and permission setting do
not change either file's contents and are not modelled. -/
def save_states (init : FsState) (c : Config) (renameFails : Bool) : List FsState :=
  let mid : FsState := { init with tmp := some Content.torn }
  let written : FsState := { init with tmp := some (Content.full c) }
  if renameFails then
    if init.store.isSome then
      [init, mid, written,
       { store := none, tmp := some (Content.full c) },
       { store := some (Content.full c), tmp := none }]
    else [init, mid, written]
  else
    [init, mid, written, { store := some (Content.full c), tmp := none }]

/-- Model of `config.rs::load_config` as a function of the store file's contents:
an absent file is the default record, a complete record parses back to
itself, a torn write fails to parse. -/
def load_config_contents : Option Content → Except String Config
  | none => .ok configDefault
  | some (Content.full c) => .ok c
  | some Content.torn => .error "failed to parse config"

/-! ## src/follow.rs — token freshness -/

/-- Model of `follow.rs::token_needs_refresh` (lines 90–103), with `Utc::now()`
passed in as `now`: the cached token is trusted only when it is non-empty
after trimming, an expiry is present, and `now < expires_at`. -/
def token_needs_refresh (config : Config) (now : Int) : Bool :=
  let token := optFilter (fun v => !v.data.isEmpty) (config.twitch.access_token.map trim)
  match token, config.twitch.expires_at with
  | some _, some e => decide (e ≤ now)
  | _, _ => true

/-! ## src/auth.rs — refresh procedure -/

/-- Model of `auth.rs::TokenResponse`. -/
structure TokenResponse where
  access_token : String
  expires_in : Int
  token_type : String
deriving DecidableEq

/-- Environment oracle for one `auth::run` invocation: the outcome of the
HTTP POST (transport error, or status code plus body), the serde view of a
body, and the current time. -/
structure AuthEnv where
  send : Except String (Nat × String)
  parseToken : String → Option TokenResponse
  now : Int

/-- Observable effects of one `auth::run` invocation: the number of network
calls issued, the durable credential-store writes performed (in order; the
store write is `config::save_config_default`, the atomic `save(Record)` of
the spec), and the command's result (carrying the final record on
success). -/
structure AuthOutcome where
  netCalls : Nat
  writes : List Config
  result : Except String Config

/-- Trimmed, non-empty client id of a record
(`config.twitch.client_id.as_deref().map(str::trim).filter(|v| !v.is_empty())`). -/
def trimmed_client_id (config : Config) : Option String :=
  optFilter (fun v => !v.data.isEmpty) (config.twitch.client_id.map trim)

/-- Trimmed, non-empty client secret of a record. -/
def trimmed_client_secret (config : Config) : Option String :=
  optFilter (fun v => !v.data.isEmpty) (config.twitch.client_secret.map trim)

/-- The `missing` vector built by `auth.rs::credentials`: `"client ID"` is
pushed first, then `"client secret"`. -/
def missing_fields (config : Config) : List String :=
  (if (trimmed_client_id config).isNone then ["client ID"] else []) ++
    (if (trimmed_client_secret config).isNone then ["client secret"] else [])

/-- Model of `auth.rs::credentials` (lines 86–117). -/
def credentials (config : Config) : Except String (String × String) :=
  match trimmed_client_id config, trimmed_client_secret config with
  | some cid, some csec => .ok (cid, csec)
  | _, _ =>
    .error ("Missing Twitch " ++ String.intercalate " and " (missing_fields config) ++
      ". Run `ttv config --client-id <ID> --client-secret <SECRET>` first.")

/-- Model of `reqwest::StatusCode::is_success`: 200–299. -/
def is_success_status (status : Nat) : Bool :=
  decide (200 ≤ status) && decide (status < 300)

/-- Model of `auth.rs::map_auth_error` (lines 119–132). -/
def map_auth_error (status : Nat) (body : String) : String :=
  if status = 400 then "Invalid Twitch client ID. Double-check `ttv config --client-id`."
  else if status = 403 then
    "Invalid Twitch client secret. Double-check `ttv config --client-secret`."
  else if status = 429 then "Twitch API rate limit exceeded. Try again later."
  else "Unexpected Twitch auth response (" ++ toString status ++ "). " ++ body

/-- Model of `auth.rs::run` (lines 27–84): check credentials, POST the
client-credentials grant, map non-2xx statuses, parse the body, compute
`expires_at = now + expires_in`, persist via `save_config_default`, and
return.  The store write is recorded in the `writes` trace. -/
def auth_run (config : Config) (env : AuthEnv) : AuthOutcome :=
  match credentials config with
  | .error e => ⟨0, [], .error e⟩
  | .ok _ =>
    match env.send with
    | .error _ => ⟨1, [], .error "failed to send auth request to Twitch"⟩
    | .ok (status, body) =>
      if !is_success_status status then ⟨1, [], .error (map_auth_error status body)⟩
      else
        match env.parseToken body with
        | none => ⟨1, [], .error "failed to parse Twitch token response"⟩
        | some token =>
          let expires_at := env.now + token.expires_in
          let config2 : Config :=
            { config with
              twitch := { config.twitch with
                access_token := some token.access_token,
                expires_at := some expires_at } }
          ⟨1, [config2], .ok config2⟩

/-! ## src/twitch.rs — batched resolution -/

/-- Model of `twitch.rs::TwitchUser`. -/
structure TwitchUser where
  id : String
  login : String
  display_name : String
deriving DecidableEq

/-- Model of `twitch.rs::TwitchStream`. -/
structure TwitchStream where
  user_id : String
  user_login : String
  user_name : String
  game_name : String
deriving DecidableEq

/-- Consecutive chunks of at most 100 items, with a structural fuel argument
(`fuel ≥ l.length` in every use) so that concrete instances compute. -/
def chunksGo : Nat → List String → List (List String)
  | _, [] => []
  | 0, l => [l]
  | fuel + 1, l => l.take 100 :: chunksGo fuel (l.drop 100)

/-- Rust `slice::chunks(100)`: consecutive groups of at most 100 items. -/
def chunks100 (l : List String) : List (List String) :=
  chunksGo l.length l

/-- Batch loop shared by `fetch_users_by_login` and
`fetch_streams_by_user_ids`: one upstream request per batch (via the oracle
`api`), extending the accumulator with each response, propagating the first
error.  First component: the requests actually issued, in order. -/
def fetch_batches (api : List String → Except String (List α)) :
    List (List String) → List (List String) × Except String (List α)
  | [] => ([], .ok [])
  | b :: rest =>
    match api b with
    | .error e => ([b], .error e)
    | .ok items =>
      let (t, res) := fetch_batches api rest
      (b :: t, res.map (fun more => items ++ more))

/-- Model of `twitch.rs::fetch_users_by_login` (lines 47–69): empty input short
circuit, then one request per 100-item chunk. -/
def fetch_users_by_login (api : List String → Except String (List TwitchUser))
    (logins : List String) :
    List (List String) × Except String (List TwitchUser) :=
  if logins.isEmpty then ([], .ok [])
  else fetch_batches api (chunks100 logins)

/-- Model of `twitch.rs::fetch_streams_by_user_ids` (lines 71–93). -/
def fetch_streams_by_user_ids (api : List String → Except String (List TwitchStream))
    (ids : List String) :
    List (List String) × Except String (List TwitchStream) :=
  if ids.isEmpty then ([], .ok [])
  else fetch_batches api (chunks100 ids)

/-! ## Shared parsing lemmas -/

/-- A URL the code accepts always carries a valid login as its path. -/
theorem parse_twitch_url_valid {input l : String} (h : parse_twitch_url input = some l) :
    is_valid_login l = true := by
  unfold parse_twitch_url at h
  split at h
  · exact absurd h (by simp)
  · simp only at h
    split at h
    · exact absurd h (by simp)
    · split at h
      · exact absurd h (by simp)
      · split at h
        · exact absurd h (by simp)
        · rename_i path _ _ hval
          obtain rfl : (⟨path⟩ : String) = l := by simpa using h
          simpa [is_valid_login] using hval

/-- A URL the code accepts is well-formed in the spec's sense. -/
theorem parse_twitch_url_spec_form {input l : String}
    (h : parse_twitch_url input = some l) : spec_url_form input = true := by
  unfold parse_twitch_url at h
  unfold spec_url_form
  split at h
  · exact absurd h (by simp)
  · simp only at h ⊢
    split at h
    · exact absurd h (by simp)
    · split at h
      · exact absurd h (by simp)
      · rename_i hbad
        simp only [Bool.or_eq_true, not_or, Bool.not_eq_true] at hbad
        simp only [Bool.and_eq_true, Bool.not_eq_true']
        exact ⟨⟨⟨hbad.1.1.1, hbad.1.1.2⟩, hbad.1.2⟩, hbad.2⟩

/-- The spec-side bare-login form is exactly the code's `is_valid_login`. -/
theorem spec_bare_form_eq (input : String) : spec_bare_form input = is_valid_login input := rfl

/-- An input matching neither spec-side form is rejected by `parse_login`
with the `Invalid Twitch URL or login` message. -/
theorem parse_login_rejects {input : String} (hurl : spec_url_form input = false)
    (hbare : spec_bare_form input = false) :
    parse_login input = .error ("Invalid Twitch URL or login: " ++ input) := by
  unfold parse_login
  have hnone : parse_twitch_url input = none := by
    rcases hu : parse_twitch_url input with _ | l
    · rfl
    · exact absurd (parse_twitch_url_spec_form hu) (by simp [hurl])
  rw [hnone, spec_bare_form_eq input] at *
  simp [hbare]

/-- A string differs from the empty string iff its character list is non-nil. -/
theorem str_ne_empty (s : String) : s ≠ "" ↔ s.data ≠ [] := by
  rw [Ne, String.ext_iff]

/-- C10: the URL input form is strictly narrower than the rejection list
suggests: the well-formed URL `https://twitch.tv/foo-bar` (single non-empty
path segment, none of `/`, `?`, `#`) is still rejected because `-` is not an
ASCII letter, digit, or underscore, and every identifier `parse_login`
accepts consists only of those characters. -/
theorem url_path_charset_restriction :
    parse_twitch_url "https://twitch.tv/foo-bar" = none ∧
    spec_url_form "https://twitch.tv/foo-bar" = true ∧
    ∀ input out, parse_login input = .ok out → is_valid_login out = true := by
  refine ⟨rfl, rfl, ?_⟩
  intro input out h
  unfold parse_login at h
  split at h
  · rename_i l hu
    obtain rfl : l = out := by simpa using h
    exact parse_twitch_url_valid hu
  · split at h
    · rename_i hv
      obtain rfl : input = out := by simpa using h
      exact hv
    · exact absurd h (by simp)

/-- C10 witness: `parse_login` accepts the URL `https://twitch.tv/Foo` with
identifier `Foo`, which the theorem certifies is made of login characters. -/
theorem url_path_charset_restriction_witness :
    parse_login "https://twitch.tv/Foo" = .ok "Foo" ∧ is_valid_login "Foo" = true :=
  ⟨rfl, url_path_charset_restriction.2.2 "https://twitch.tv/Foo" "Foo" rfl⟩

/-- C4: the cached access token is trusted (`token_needs_refresh` is false,
so `follow::run` attempts no refresh and performs no network call) iff the
token is non-empty after trimming, an expiry is present, and the current
time is strictly before that expiry; with an absent token, an empty or
whitespace-only token, or an absent expiry, a refresh is attempted. -/
theorem token_trusted_iff (config : Config) (now : Int) :
    token_needs_refresh config now = false ↔
      ∃ t, config.twitch.access_token = some t ∧ trim t ≠ "" ∧
        ∃ e, config.twitch.expires_at = some e ∧ now < e := by
  rcases config with ⟨⟨cid, csec, tok, exp⟩⟩
  cases tok with
  | none => simp [token_needs_refresh, optFilter]
  | some t =>
    by_cases hemp : (trim t).data.isEmpty
    · have ht : trim t = "" := String.ext_iff.mpr (by simpa [List.isEmpty_iff] using hemp)
      simp [token_needs_refresh, optFilter, hemp, ht]
    · have ht : trim t ≠ "" := by
        rw [str_ne_empty]
        simpa [List.isEmpty_eq_false] using hemp
      cases exp with
      | none => simp [token_needs_refresh, optFilter, hemp]
      | some e =>
        simp [token_needs_refresh, optFilter, hemp, ht, decide_eq_false_iff_not]

/-! ## Watch orchestrator: launch-failure behaviour (C1, C2) -/

/-- Oracle where target `a`'s process fails to spawn and every other target
exits cleanly. -/
def exProcSpawnFailA : String → ProcResult :=
  fun l => if l = "a" then .spawnErr "No such file or directory (os error 2)" else .exited 0

/-- Oracle where target `b`'s process fails to spawn and every other target
exits cleanly. -/
def exProcSpawnFailB : String → ProcResult :=
  fun l => if l = "b" then .spawnErr "boom" else .exited 0

/-- Oracle where target `b`'s process exits with code 1 and every other
target exits cleanly. -/
def exProcExitB : String → ProcResult :=
  fun l => if l = "b" then .exited 1 else .exited 0

/-- C1 counterexample: with targets `a` and `b` where `a`'s spawn fails, the
whole operation aborts with the spawn-context error — the failure is not
turned into a per-target outcome aggregated into the final `PartialFailure`
message, and `b` is never launched (the spawn-attempt trace is `[a]`). -/
theorem spawn_failure_not_isolated_cex :
    watch_run exProcSpawnFailA ["a", "b"] =
      (["a"], .error "failed to start streamlink for a") ∧
    (watch_run exProcSpawnFailA ["a", "b"]).1 ≠ ["a", "b"] :=
  ⟨rfl, by decide⟩

/-- C1 amended: a spawn failure is not isolated — the first target whose
process fails to spawn aborts the whole launch loop with an error naming
that target; targets after it are never spawned (the attempt trace stops at
the failing target) and the failure is not aggregated with the others. -/
theorem first_spawn_failure_aborts (proc : String → ProcResult) (pre : List String)
    (l : String) (post : List String)
    (hok : ∀ x ∈ pre, isSpawnErrB (proc x) = false)
    (hfail : isSpawnErrB (proc l) = true) :
    launch proc (pre ++ l :: post) =
      (pre ++ [l], .error ("failed to start streamlink for " ++ l)) := by
  induction pre with
  | nil =>
    simp only [List.nil_append]
    cases hp : proc l with
    | spawnErr m => simp [launch, hp]
    | waitErr m => rw [hp] at hfail; simp [isSpawnErrB] at hfail
    | exited c => rw [hp] at hfail; simp [isSpawnErrB] at hfail
  | cons x pre ih =>
    have hx : isSpawnErrB (proc x) = false := hok x (by simp)
    have hrest := ih (fun y hy => hok y (by simp [hy]))
    cases hp : proc x with
    | spawnErr m => rw [hp] at hx; simp [isSpawnErrB] at hx
    | waitErr m => simp [launch, hp, hrest, Except.map]
    | exited c => simp [launch, hp, hrest, Except.map]

/-- C1 amended witness: targets `a`, `b`, `c` where `b`'s spawn fails —
the loop attempts `a` and `b` only and aborts with `b`'s spawn error. -/
theorem first_spawn_failure_aborts_witness :
    launch exProcSpawnFailB ["a", "b", "c"] =
      (["a", "b"], .error "failed to start streamlink for b") :=
  first_spawn_failure_aborts exProcSpawnFailB ["a"] "b" ["c"] (by decide) (by decide)

/-- In-order failure messages of the wait loop, one per failing target, as a
filter over the original (normalized) target order. -/
def failure_messages (proc : String → ProcResult) (logins : List String) : List String :=
  logins.filterMap (fun l =>
    match proc l with
    | .exited 0 => none
    | .exited c => some (l ++ " (exit " ++ toString c ++ ")")
    | .waitErr e => some (l ++ " (" ++ e ++ ")")
    | .spawnErr _ => none)

/-- When every spawn succeeds, the launch loop attempts every login in order
and returns one handle per login, in order. -/
theorem launch_all_spawned (proc : String → ProcResult) (logins : List String)
    (h : ∀ l ∈ logins, isSpawnErrB (proc l) = false) :
    launch proc logins =
      (logins, .ok (logins.map (fun l => (l, wait_of (proc l))))) := by
  induction logins with
  | nil => simp [launch]
  | cons x rest ih =>
    have hx : isSpawnErrB (proc x) = false := h x (by simp)
    have hrest := ih (fun y hy => h y (by simp [hy]))
    cases hp : proc x with
    | spawnErr m => rw [hp] at hx; simp [isSpawnErrB] at hx
    | waitErr m => simp [launch, hp, hrest, wait_of, Except.map]
    | exited c => simp [launch, hp, hrest, wait_of, Except.map]

/-- The wait loop over the in-order handles produces exactly the in-order
failure messages. -/
theorem collect_failures_map (proc : String → ProcResult) (logins : List String)
    (h : ∀ l ∈ logins, isSpawnErrB (proc l) = false) :
    collect_failures (logins.map (fun l => (l, wait_of (proc l)))) =
      failure_messages proc logins := by
  induction logins with
  | nil => rfl
  | cons x rest ih =>
    have hx : isSpawnErrB (proc x) = false := h x (by simp)
    have hrest := ih (fun y hy => h y (by simp [hy]))
    unfold failure_messages at hrest ⊢
    cases hp : proc x with
    | spawnErr m => rw [hp] at hx; simp [isSpawnErrB] at hx
    | waitErr m =>
      rw [List.map_cons, List.filterMap_cons]
      rw [hp]
      exact congrArg (List.cons _) hrest
    | exited c =>
      rw [List.map_cons, List.filterMap_cons]
      rw [hp]
      cases c with
      | zero => exact hrest
      | succ c' => exact congrArg (List.cons _) hrest

/-- C2 amended: when every target's process spawns successfully, `watch`
collects one outcome per launched target (it processes the whole handle
list, in launch order, never returning after a prefix), fails iff some
outcome is a failure, and the aggregated message lists exactly the failing
targets in original target order — but it does not report the count of
targets that succeeded. -/
theorem watch_waits_and_aggregates (proc : String → ProcResult) (inputs logins : List String)
    (hn : normalize_inputs inputs = .ok logins) (hne : logins ≠ [])
    (hs : ∀ l ∈ logins, isSpawnErrB (proc l) = false) :
    watch_run proc inputs =
      (logins,
        if failure_messages proc logins = [] then .ok ()
        else .error ("Some streams failed to start or exited early: " ++
          String.intercalate ", " (failure_messages proc logins))) := by
  have hE : logins.isEmpty = false := List.isEmpty_eq_false.mpr hne
  unfold watch_run
  rw [hn]
  simp only [hE, Bool.false_eq_true, if_false]
  rw [launch_all_spawned proc logins hs]
  simp only
  rw [collect_failures_map proc logins hs]
  by_cases hf : failure_messages proc logins = []
  · simp [hf]
  · simp [hf, List.isEmpty_eq_false.mpr hf]

/-- C2 counterexample: for targets `a`, `b`, `c` where exactly `b` exits
nonzero, `watch` does fail naming only `b` — but the failure message
contains no count of succeeded targets (neither the word `succeeded` nor
the digit `2` occurs in it), refuting the "reports the count of targets
that succeeded" part of the claim. -/
theorem watch_no_success_count_cex :
    watch_run exProcExitB ["a", "b", "c"] =
      (["a", "b", "c"],
        .error "Some streams failed to start or exited early: b (exit 1)") ∧
    containsSeq "Some streams failed to start or exited early: b (exit 1)".data
      "succeeded".data = false ∧
    containsSeq "Some streams failed to start or exited early: b (exit 1)".data
      "2".data = false :=
  ⟨rfl, by decide, by decide⟩

/-- C2 amended witness: the three-target scenario of the spec, via the
amended theorem. -/
theorem watch_waits_and_aggregates_witness :
    watch_run exProcExitB ["a", "b", "c"] =
      (["a", "b", "c"], .error "Some streams failed to start or exited early: b (exit 1)") := by
  rw [watch_waits_and_aggregates exProcExitB ["a", "b", "c"] ["a", "b", "c"] rfl
    (by decide) (by decide)]
  rfl

/-! ## Credential-store save (C3) -/

/-- An example pre-existing credential record (distinct from the defaults). -/
def exOldCfg : Config :=
  { twitch := { client_id := some "id", client_secret := some "sec",
                access_token := some "oldtoken", expires_at := some 50 } }

/-- An example record being saved (distinct from both the old record and the
defaults). -/
def exNewCfg : Config :=
  { twitch := { client_id := some "id", client_secret := some "sec",
                access_token := some "newtoken", expires_at := some 100 } }

/-- C3 counterexample: on the fallback path of `save_config` (rename failed
while the store file exists), the state just after `fs::remove_file` is a
reachable interruption point at which the store file is absent; the next
load then yields the default record, which is neither the old complete
record nor the new one — refuting "a reader always sees either the old
complete record or the new complete record". -/
theorem save_fallback_reader_sees_default_cex :
    (⟨none, some (Content.full exNewCfg)⟩ : FsState) ∈
      save_states ⟨some (Content.full exOldCfg), none⟩ exNewCfg true ∧
    load_config_contents none = .ok configDefault ∧
    configDefault ≠ exOldCfg ∧ configDefault ≠ exNewCfg :=
  ⟨by decide, rfl, by decide, by decide⟩

/-- C3 amended: at every interruption point of `save_config` the store file
is never torn — the next load always succeeds — and a reader sees the old
store contents, the complete new record, or (only between the remove and
the second rename of the fallback path taken when the first rename fails on
an existing store file) no file at all, which the next load treats as the
complete default record. -/
theorem save_states_reader_safe (init : FsState) (c : Config) (renameFails : Bool)
    (hinit : init.store ≠ some Content.torn) :
    ∀ s ∈ save_states init c renameFails,
      (∃ cfg, load_config_contents s.store = .ok cfg) ∧
      (s.store = init.store ∨ s.store = some (Content.full c) ∨ s.store = none) := by
  have hload : ∃ cfg, load_config_contents init.store = .ok cfg := by
    rcases hst : init.store with _ | content
    · exact ⟨configDefault, rfl⟩
    · cases content with
      | full c' => exact ⟨c', rfl⟩
      | torn => exact absurd hst hinit
  intro s hs
  unfold save_states at hs
  split at hs
  · split at hs
    · simp only [List.mem_cons, List.mem_singleton, List.not_mem_nil, or_false] at hs
      rcases hs with rfl | rfl | rfl | rfl | rfl
      · exact ⟨hload, Or.inl rfl⟩
      · exact ⟨hload, Or.inl rfl⟩
      · exact ⟨hload, Or.inl rfl⟩
      · exact ⟨⟨configDefault, rfl⟩, Or.inr (Or.inr rfl)⟩
      · exact ⟨⟨c, rfl⟩, Or.inr (Or.inl rfl)⟩
    · simp only [List.mem_cons, List.mem_singleton, List.not_mem_nil, or_false] at hs
      rcases hs with rfl | rfl | rfl
      · exact ⟨hload, Or.inl rfl⟩
      · exact ⟨hload, Or.inl rfl⟩
      · exact ⟨hload, Or.inl rfl⟩
  · simp only [List.mem_cons, List.mem_singleton, List.not_mem_nil, or_false] at hs
    rcases hs with rfl | rfl | rfl | rfl
    · exact ⟨hload, Or.inl rfl⟩
    · exact ⟨hload, Or.inl rfl⟩
    · exact ⟨hload, Or.inl rfl⟩
    · exact ⟨⟨c, rfl⟩, Or.inr (Or.inl rfl)⟩

/-- C3 amended witness: the amended theorem applied at the fallback path's
remove point, starting from a store holding the old record. -/
theorem save_states_reader_safe_witness :
    (∃ cfg, load_config_contents
        ((⟨none, some (Content.full exNewCfg)⟩ : FsState)).store = .ok cfg) ∧
    ((⟨none, some (Content.full exNewCfg)⟩ : FsState).store =
          (⟨some (Content.full exOldCfg), none⟩ : FsState).store ∨
      (⟨none, some (Content.full exNewCfg)⟩ : FsState).store =
          some (Content.full exNewCfg) ∨
      (⟨none, some (Content.full exNewCfg)⟩ : FsState).store = none) :=
  save_states_reader_safe ⟨some (Content.full exOldCfg), none⟩ exNewCfg true
    (by decide) ⟨none, some (Content.full exNewCfg)⟩ (by decide)

/-! ## Normalization refinement (C5, C6) -/

/-- The normalization loop equals mapping `parse_login`, lower-casing, and
first-occurrence deduplication relative to the already-seen keys. -/
theorem normalize_go_eq (inputs : List String) :
    ∀ seen acc, normalize_go inputs seen acc =
      (mapExcept parse_login inputs).map
        (fun ls => acc ++ dedup_first_excluding seen (ls.map to_lowercase)) := by
  induction inputs with
  | nil =>
    intro seen acc
    simp [normalize_go, mapExcept, dedup_first_excluding, Except.map]
  | cons input rest ih =>
    intro seen acc
    cases hp : parse_login input with
    | error e => simp [normalize_go, mapExcept, hp, Except.map]
    | ok login =>
      by_cases hc : to_lowercase login ∈ seen
      · have h1 : normalize_go (input :: rest) seen acc = normalize_go rest seen acc := by
          simp [normalize_go, hp, hc]
        rw [h1, ih]
        cases hm : mapExcept parse_login rest with
        | error e => simp [mapExcept, hp, hm, Except.map]
        | ok ls => simp [mapExcept, hp, hm, Except.map, dedup_first_excluding, hc]
      · have h1 : normalize_go (input :: rest) seen acc =
            normalize_go rest (to_lowercase login :: seen) (acc ++ [to_lowercase login]) := by
          simp [normalize_go, hp, hc]
        rw [h1, ih]
        cases hm : mapExcept parse_login rest with
        | error e => simp [mapExcept, hp, hm, Except.map]
        | ok ls => simp [mapExcept, hp, hm, Except.map, dedup_first_excluding, hc]

/-- Deduplication relative to a seen set equals plain first-occurrence
deduplication of the keys not already seen. -/
theorem dedup_excluding_eq (keys : List String) :
    ∀ seen, dedup_first_excluding seen keys =
      dedup_first (keys.filter (fun x => !seen.contains x)) := by
  induction keys with
  | nil => intro seen; simp [dedup_first_excluding, dedup_first]
  | cons k tl ih =>
    intro seen
    by_cases hc : k ∈ seen
    · have h1 : dedup_first_excluding seen (k :: tl) = dedup_first_excluding seen tl := by
        simp [dedup_first_excluding, hc]
      rw [h1, ih, List.filter_cons]
      simp [hc]
    · have h1 : dedup_first_excluding seen (k :: tl) =
          k :: dedup_first_excluding (k :: seen) tl := by
        simp [dedup_first_excluding, hc]
      rw [h1, ih (k :: seen), List.filter_cons,
        if_pos (show (!seen.contains k) = true by simp [hc])]
      rw [dedup_first, List.filter_filter]
      congr 1
      exact congrArg dedup_first (List.filter_congr (fun x _ => by
        simp [List.contains_cons, Bool.not_or, Bool.and_comm,
          show (x == k) = decide (x = k) from rfl]))

/-- The function `normalize_inputs` equals its spec-side description: map `parse_login`
over the raw inputs, lower-case every parsed login, and deduplicate keeping
first occurrences. -/
theorem normalize_inputs_eq (inputs : List String) :
    normalize_inputs inputs =
      (mapExcept parse_login inputs).map (fun ls => dedup_first (ls.map to_lowercase)) := by
  rw [show normalize_inputs inputs = normalize_go inputs [] [] from rfl]
  rw [normalize_go_eq]
  cases hm : mapExcept parse_login inputs with
  | error e => simp [Except.map]
  | ok ls => simp [Except.map, dedup_excluding_eq]

/-- C5: input normalization lower-cases every valid input and deduplicates
by case-insensitive identity preserving first-occurrence order (it equals
mapping `parse_login`, lower-casing, and first-occurrence deduplication);
in particular `["https://twitch.tv/Foo", "foo", "FOO"]` normalizes to the
single target `"foo"`. -/
theorem normalize_lowercases_and_dedups :
    (∀ inputs, normalize_inputs inputs =
      (mapExcept parse_login inputs).map (fun ls => dedup_first (ls.map to_lowercase))) ∧
    normalize_inputs ["https://twitch.tv/Foo", "foo", "FOO"] = .ok ["foo"] :=
  ⟨normalize_inputs_eq, rfl⟩

/-- If some element of the list maps to an error, so does the whole
`mapExcept` traversal. -/
theorem mapExcept_error_of_mem {f : α → Except ε β} {l : List α} {a : α}
    (ha : a ∈ l) {e : ε} (he : f a = .error e) :
    ∃ e', mapExcept f l = .error e' := by
  induction l with
  | nil => simp at ha
  | cons x rest ih =>
    cases hx : f x with
    | error e0 => exact ⟨e0, by simp [mapExcept, hx]⟩
    | ok b =>
      rcases List.mem_cons.mp ha with rfl | hmem
      · rw [hx] at he
        exact absurd he (by simp)
      · obtain ⟨e', he'⟩ := ih hmem
        exact ⟨e', by simp [mapExcept, hx, he', Except.map]⟩

/-- C6: a raw input that is neither a valid service URL (http/https scheme,
optional `www.`, host `twitch.tv`, single non-empty path segment without
`/`, `?`, `#`) nor a bare login (non-empty, ASCII letters/digits/underscore
only) makes the whole watch operation fail during normalization: no spawn
is ever attempted and the run returns an error. -/
theorem invalid_input_fails_before_launch (proc : String → ProcResult)
    (inputs : List String) (input : String) (hmem : input ∈ inputs)
    (hurl : spec_url_form input = false) (hbare : spec_bare_form input = false) :
    (watch_run proc inputs).1 = [] ∧ ∃ e, (watch_run proc inputs).2 = .error e := by
  obtain ⟨e', he'⟩ := mapExcept_error_of_mem hmem (parse_login_rejects hurl hbare)
  have hn : normalize_inputs inputs = .error e' := by
    rw [normalize_inputs_eq, he']
    rfl
  unfold watch_run
  rw [hn]
  exact ⟨rfl, ⟨e', rfl⟩⟩

/-- An oracle whose processes all exit cleanly. -/
def exProcAllOk : String → ProcResult := fun _ => .exited 0

/-- C6 witness: `http://example.com/foo` (wrong host) matches neither form,
so the watch operation fails with nothing launched. -/
theorem invalid_input_fails_before_launch_witness :
    (watch_run exProcAllOk ["http://example.com/foo"]).1 = [] ∧
    ∃ e, (watch_run exProcAllOk ["http://example.com/foo"]).2 = .error e :=
  invalid_input_fails_before_launch exProcAllOk ["http://example.com/foo"]
    "http://example.com/foo" (by simp) rfl rfl

/-! ## Token refresh (C7, C8) -/

/-- C7: a successful refresh performs exactly one durable write to the
credential store — the returned record, holding the response's access token
and an expiry of `now + expires_in` — and that write is the recorded effect
before success is returned; every failing path (missing credentials,
transport error, non-2xx status, unparseable body) performs zero writes. -/
theorem refresh_single_write (config : Config) (env : AuthEnv) :
    (∀ c, (auth_run config env).result = .ok c →
      (auth_run config env).writes = [c] ∧
      ∃ status body token, env.send = .ok (status, body) ∧
        is_success_status status = true ∧ env.parseToken body = some token ∧
        c = { config with twitch := { config.twitch with
                access_token := some token.access_token,
                expires_at := some (env.now + token.expires_in) } }) ∧
    (∀ e, (auth_run config env).result = .error e → (auth_run config env).writes = []) := by
  rcases hc : credentials config with e | p
  · have hv : auth_run config env = ⟨0, [], .error e⟩ := by simp [auth_run, hc]
    rw [hv]
    exact ⟨fun c h => by simp at h, fun e' h => rfl⟩
  · rcases hsend : env.send with e | sb
    · have hv : auth_run config env =
          ⟨1, [], .error "failed to send auth request to Twitch"⟩ := by
        simp [auth_run, hc, hsend]
      rw [hv]
      exact ⟨fun c h => by simp at h, fun e' h => rfl⟩
    · obtain ⟨status, body⟩ := sb
      cases hst : is_success_status status with
      | false =>
        have hv : auth_run config env = ⟨1, [], .error (map_auth_error status body)⟩ := by
          simp [auth_run, hc, hsend, hst]
        rw [hv]
        exact ⟨fun c h => by simp at h, fun e' h => rfl⟩
      | true =>
        rcases hparse : env.parseToken body with _ | token
        · have hv : auth_run config env =
              ⟨1, [], .error "failed to parse Twitch token response"⟩ := by
            simp [auth_run, hc, hsend, hst, hparse]
          rw [hv]
          exact ⟨fun c h => by simp at h, fun e' h => rfl⟩
        · have hv : auth_run config env =
              ⟨1, [{ config with twitch := { config.twitch with
                      access_token := some token.access_token,
                      expires_at := some (env.now + token.expires_in) } }],
                .ok { config with twitch := { config.twitch with
                      access_token := some token.access_token,
                      expires_at := some (env.now + token.expires_in) } }⟩ := by
            simp [auth_run, hc, hsend, hst, hparse]
          rw [hv]
          constructor
          · intro c h
            obtain rfl : _ = c := by simpa using h
            exact ⟨rfl, status, body, token, rfl, hst, hparse, rfl⟩
          · intro e' h
            simp at h

/-- Example credential record with both client credentials present. -/
def exCfgFull : Config :=
  { twitch := { client_id := some "cid", client_secret := some "cs",
                access_token := none, expires_at := none } }

/-- Example token-endpoint response. -/
def exTok : TokenResponse :=
  { access_token := "tok", expires_in := 3600, token_type := "bearer" }

/-- Environment where the token endpoint answers 200 with a parseable body. -/
def exEnvOk : AuthEnv :=
  { send := .ok (200, "body"),
    parseToken := fun b => if b = "body" then some exTok else none,
    now := 1000 }

/-- Environment where the POST fails at the transport level. -/
def exEnvBad : AuthEnv :=
  { send := .error "connection refused", parseToken := fun _ => none, now := 1000 }

/-- The record `auth_run exCfgFull exEnvOk` persists. -/
def exCfgUpd : Config :=
  { twitch := { client_id := some "cid", client_secret := some "cs",
                access_token := some "tok", expires_at := some 4600 } }

/-- C7 witness: one successful refresh writes exactly the updated record;
one transport-failed refresh writes nothing. -/
theorem refresh_single_write_witness :
    (auth_run exCfgFull exEnvOk).writes = [exCfgUpd] ∧
    (auth_run exCfgFull exEnvBad).writes = [] :=
  ⟨((refresh_single_write exCfgFull exEnvOk).1 exCfgUpd rfl).1,
    (refresh_single_write exCfgFull exEnvBad).2 "failed to send auth request to Twitch" rfl⟩

/-- C8: with a missing or empty (after trimming) client id or secret, the
refresh fails immediately — zero network calls, zero store writes — with an
error naming exactly the absent fields (`client ID` first, then
`client secret`, joined by ` and `). -/
theorem missing_credentials_fail_fast (config : Config) (env : AuthEnv)
    (hmiss : missing_fields config ≠ []) :
    (auth_run config env).netCalls = 0 ∧ (auth_run config env).writes = [] ∧
    (auth_run config env).result =
      .error ("Missing Twitch " ++ String.intercalate " and " (missing_fields config) ++
        ". Run `ttv config --client-id <ID> --client-secret <SECRET>` first.") := by
  have hcred : credentials config =
      .error ("Missing Twitch " ++ String.intercalate " and " (missing_fields config) ++
        ". Run `ttv config --client-id <ID> --client-secret <SECRET>` first.") := by
    unfold credentials
    rcases h1 : trimmed_client_id config with _ | cid
    · rcases h2 : trimmed_client_secret config with _ | cs <;> rfl
    · rcases h2 : trimmed_client_secret config with _ | cs
      · rfl
      · exfalso
        apply hmiss
        unfold missing_fields
        rw [h1, h2]
        rfl
  refine ⟨?_, ?_, ?_⟩ <;> simp [auth_run, hcred]

/-- Example credential record whose client id is absent. -/
def exCfgNoId : Config :=
  { twitch := { client_id := none, client_secret := some "cs",
                access_token := none, expires_at := none } }

/-- C8 witness: with the client id missing, the refresh fails naming
`client ID` only, with no network call and no write. -/
theorem missing_credentials_fail_fast_witness :
    (auth_run exCfgNoId exEnvOk).netCalls = 0 ∧
    (auth_run exCfgNoId exEnvOk).writes = [] ∧
    (auth_run exCfgNoId exEnvOk).result =
      .error ("Missing Twitch " ++ String.intercalate " and " (missing_fields exCfgNoId) ++
        ". Run `ttv config --client-id <ID> --client-secret <SECRET>` first.") :=
  missing_credentials_fail_fast exCfgNoId exEnvOk (by decide)

/-! ## Batched resolution (C9) -/

/-- Every chunk produced by `chunksGo` (with enough fuel) is non-empty with
at most 100 items, and the chunks concatenate back to the input. -/
theorem chunksGo_bounds_join :
    ∀ (fuel : Nat) (l : List String), l.length ≤ fuel →
      (chunksGo fuel l).all (fun b => decide (b.length ≤ 100) && !b.isEmpty) = true ∧
      (chunksGo fuel l).flatten = l := by
  intro fuel
  induction fuel with
  | zero =>
    intro l h
    have hnil : l = [] := List.eq_nil_of_length_eq_zero (Nat.le_zero.mp h)
    subst hnil
    exact ⟨rfl, rfl⟩
  | succ f ih =>
    intro l h
    cases l with
    | nil => exact ⟨rfl, rfl⟩
    | cons x xs =>
      have hd : ((x :: xs).drop 100).length ≤ f := by
        simp only [List.length_drop, List.length_cons] at *
        omega
      obtain ⟨iha, ihj⟩ := ih _ hd
      have hstep : chunksGo (f + 1) (x :: xs) =
          (x :: xs).take 100 :: chunksGo f ((x :: xs).drop 100) := rfl
      refine ⟨?_, ?_⟩
      · rw [hstep, List.all_cons, iha]
        simp [List.length_take, List.take_succ_cons]
      · rw [hstep]
        simp only [List.flatten_cons]
        rw [ihj, List.take_append_drop]

/-- When every upstream request succeeds, the batch loop issues exactly one
request per batch, in order, and returns the concatenated responses. -/
theorem fetch_batches_ok {α : Type} (api : List String → List α)
    (batches : List (List String)) :
    fetch_batches (fun b => Except.ok (api b)) batches =
      (batches, .ok (batches.map api).flatten) := by
  induction batches with
  | nil => rfl
  | cons b rest ih => simp [fetch_batches, ih, Except.map]

set_option maxRecDepth 4000 in
/-- C9: identity and liveness resolution split the request list into
consecutive chunks of at most 100 (each non-empty, concatenating back to
the request list), issue exactly one upstream request per chunk, and return
the concatenation of the per-chunk responses, so every item the upstream
service returns is present; 150 items produce exactly 2 requests of sizes
100 and 50. -/
theorem batched_resolution (api : List String → List TwitchUser)
    (sapi : List String → List TwitchStream) (logins ids : List String) :
    fetch_users_by_login (fun b => .ok (api b)) logins =
      (chunks100 logins, .ok ((chunks100 logins).map api).flatten) ∧
    fetch_streams_by_user_ids (fun b => .ok (sapi b)) ids =
      (chunks100 ids, .ok ((chunks100 ids).map sapi).flatten) ∧
    (chunks100 logins).all (fun b => decide (b.length ≤ 100) && !b.isEmpty) = true ∧
    (chunks100 logins).flatten = logins ∧
    (chunks100 (List.replicate 150 "x")).map List.length = [100, 50] := by
  obtain ⟨ha, hj⟩ := chunksGo_bounds_join logins.length logins (le_refl _)
  refine ⟨?_, ?_, ha, hj, by decide⟩
  · by_cases h : logins.isEmpty
    · have hnil : logins = [] := List.isEmpty_iff.mp h
      subst hnil
      rfl
    · simp [fetch_users_by_login, h, fetch_batches_ok]
  · by_cases h : ids.isEmpty
    · have hnil : ids = [] := List.isEmpty_iff.mp h
      subst hnil
      rfl
    · simp [fetch_streams_by_user_ids, h, fetch_batches_ok]
